import Mathlib

/-!
Verification of the diagnostic-session management client
(`src/bedrock_session_demo.py`) against its specification.

The program is orchestration glue around a remote session gateway.  We embed
the three operations the claims are about — `store_diagnostic_step`,
`retrieve_diagnostic_context`, `delete_diagnostic_session` — as pure Lean
functions over an explicit model of the remote gateway responses, the local
file system and the interactive confirmation.  Observable side effects
(gateway calls, the retry sleep, warning and error messages) are returned as
an explicit event trace.

String handling mirrors CPython semantics on the operations the source uses
(`in`, `split`, `strip`, `lower`, slicing, `<` on strings), implemented over
`List Char` so that all definitions reduce in the kernel.  Python `sorted` /
`list.sort` are stable sorts; `pySortBy` below is a stable insertion sort,
which computes the same output as any stable sort for the total preorders
used here (string comparison on a key).
-/

/-! ## Python-faithful string primitives -/

/-- Tests whether the second character list is a prefix of the first. -/
def pyStartsWith : List Char → List Char → Bool
  | _, [] => true
  | [], _ :: _ => false
  | c :: cs, d :: ds => c == d && pyStartsWith cs ds

/-- Worker for `pySplit`: scans left to right, splitting on each
(non-overlapping) occurrence of `sep`.  Fuel is an upper bound on the number
of scan steps; `pySplit` supplies enough fuel that the fallback first branch
is never reached. -/
def pySplitGo (sep : List Char) : Nat → List Char → List Char → List (List Char)
  | 0, l, cur => [cur.reverse ++ l]
  | _ + 1, [], cur => [cur.reverse]
  | fuel + 1, c :: rest, cur =>
    if pyStartsWith (c :: rest) sep then
      cur.reverse :: pySplitGo sep fuel ((c :: rest).drop sep.length) []
    else
      pySplitGo sep fuel rest (c :: cur)

/-- Python `s.split(sep)` for a non-empty separator (the source only splits on
non-empty literal markers). -/
def pySplit (s sep : String) : List String :=
  if sep.data.isEmpty then [s]
  else (pySplitGo sep.data (s.data.length + 1) s.data []).map fun cs => ⟨cs⟩

/-- Python `sub in s` substring containment. -/
def hasSub (s sub : String) : Bool := sub.data.isEmpty || (pySplit s sub).length != 1

/-- Python `s.lower()` (ASCII letters; the accented characters appearing in the
source markers are already lower case). -/
def pyLower (s : String) : String := ⟨s.data.map Char.toLower⟩

/-- Python `s.strip()`. -/
def pyTrim (s : String) : String :=
  ⟨(((s.data.dropWhile Char.isWhitespace).reverse).dropWhile Char.isWhitespace).reverse⟩

/-- Python `s[:n]`. -/
def pyTake (s : String) (n : Nat) : String := ⟨s.data.take n⟩

/-- Python `len(s)`. -/
def pyLen (s : String) : Nat := s.data.length

/-- Python `l[i]` on a list of strings; the source only indexes positions that
are known to exist, so the default is never observed. -/
def pyGet (l : List String) (i : Nat) : String := l.getD i ""

/-- Python `l[-1]` on a non-empty list of strings. -/
def pyGetLast (l : List String) : String := l.getLastD ""

/-- Python `bool(x)` for an optional string (`None` and `""` are falsy). -/
def pyTruthyStr : Option String → Bool
  | none => false
  | some s => s != ""

/-- Lexicographic comparison of character lists by code point, as Python
compares strings. -/
def charsLe : List Char → List Char → Bool
  | [], _ => true
  | _ :: _, [] => false
  | a :: as, b :: bs =>
    if a.toNat < b.toNat then true
    else if b.toNat < a.toNat then false
    else charsLe as bs

/-- Python `a <= b` on strings. -/
def strLe (a b : String) : Bool := charsLe a.data b.data

/-- Stable insertion of an element into a sorted list: the new element goes in
front of the first element it compares `le` to, hence after all earlier equal
keys. -/
def pyInsSorted (le : α → α → Bool) (a : α) : List α → List α
  | [] => [a]
  | b :: l => if le a b then a :: b :: l else b :: pyInsSorted le a l

/-- Stable sort, modelling Python `sorted(l, key=...)` / `l.sort(key=...)`
for the comparators used by the source (total preorders). -/
def pySortBy (le : α → α → Bool) : List α → List α
  | [] => []
  | a :: l => pyInsSorted le a (pySortBy le l)

/-! ## Lemmas about the string order and the stable sort -/

theorem charsLe_trans (a : List Char) :
    ∀ b c, charsLe a b = true → charsLe b c = true → charsLe a c = true := by
  induction a with
  | nil => intro b c _ _; rfl
  | cons x xs ih =>
    intro b c h1 h2
    cases b with
    | nil => simp [charsLe] at h1
    | cons y ys =>
      cases c with
      | nil => simp [charsLe] at h2
      | cons z zs =>
        by_cases hxy : x.toNat < y.toNat
        · by_cases hyz : y.toNat < z.toNat
          · have hxz : x.toNat < z.toNat := by omega
            simp only [charsLe]; rw [if_pos hxz]
          · by_cases hzy : z.toNat < y.toNat
            · simp only [charsLe] at h2; rw [if_neg hyz, if_pos hzy] at h2; simp at h2
            · have hxz : x.toNat < z.toNat := by omega
              simp only [charsLe]; rw [if_pos hxz]
        · by_cases hyx : y.toNat < x.toNat
          · simp only [charsLe] at h1; rw [if_neg hxy, if_pos hyx] at h1; simp at h1
          · simp only [charsLe] at h1; rw [if_neg hxy, if_neg hyx] at h1
            by_cases hyz : y.toNat < z.toNat
            · have hxz : x.toNat < z.toNat := by omega
              simp only [charsLe]; rw [if_pos hxz]
            · by_cases hzy : z.toNat < y.toNat
              · simp only [charsLe] at h2; rw [if_neg hyz, if_pos hzy] at h2; simp at h2
              · simp only [charsLe] at h2; rw [if_neg hyz, if_neg hzy] at h2
                have hxz : ¬ x.toNat < z.toNat := by omega
                have hzx : ¬ z.toNat < x.toNat := by omega
                simp only [charsLe]; rw [if_neg hxz, if_neg hzx]
                exact ih ys zs h1 h2

theorem charsLe_total (a : List Char) :
    ∀ b, charsLe a b = true ∨ charsLe b a = true := by
  induction a with
  | nil => intro b; left; rfl
  | cons x xs ih =>
    intro b
    cases b with
    | nil => right; rfl
    | cons y ys =>
      by_cases hxy : x.toNat < y.toNat
      · left; simp only [charsLe]; rw [if_pos hxy]
      · by_cases hyx : y.toNat < x.toNat
        · right; simp only [charsLe]; rw [if_pos hyx]
        · rcases ih ys with h | h
          · left; simp only [charsLe]; rw [if_neg hxy, if_neg hyx]; exact h
          · right; simp only [charsLe]; rw [if_neg hyx, if_neg hxy]; exact h

theorem strLe_trans (a b c : String) :
    strLe a b = true → strLe b c = true → strLe a c = true :=
  charsLe_trans a.data b.data c.data

theorem strLe_total (a b : String) : strLe a b = true ∨ strLe b a = true :=
  charsLe_total a.data b.data

theorem mem_pyInsSorted {le : α → α → Bool} {a x : α} {l : List α} :
    x ∈ pyInsSorted le a l ↔ x = a ∨ x ∈ l := by
  induction l with
  | nil => simp [pyInsSorted]
  | cons b t ih =>
    by_cases h : le a b = true
    · simp [pyInsSorted, h]
    · simp only [pyInsSorted, if_neg h, List.mem_cons, ih]
      tauto

theorem mem_pySortBy {le : α → α → Bool} {x : α} {l : List α} :
    x ∈ pySortBy le l ↔ x ∈ l := by
  induction l with
  | nil => simp [pySortBy]
  | cons b t ih => simp [pySortBy, mem_pyInsSorted, ih]

theorem pairwise_pyInsSorted {le : α → α → Bool}
    (trans : ∀ a b c, le a b = true → le b c = true → le a c = true)
    (total : ∀ a b, le a b = true ∨ le b a = true)
    {a : α} {l : List α} (h : l.Pairwise fun x y => le x y = true) :
    (pyInsSorted le a l).Pairwise fun x y => le x y = true := by
  induction l with
  | nil => simp [pyInsSorted]
  | cons b t ih =>
    rw [List.pairwise_cons] at h
    obtain ⟨hb, ht⟩ := h
    by_cases hab : le a b = true
    · simp only [pyInsSorted, if_pos hab]
      rw [List.pairwise_cons]
      refine ⟨?_, List.pairwise_cons.mpr ⟨hb, ht⟩⟩
      intro y hy
      rcases List.mem_cons.mp hy with hyb | hyt
      · rw [hyb]; exact hab
      · exact trans a b y hab (hb y hyt)
    · simp only [pyInsSorted, if_neg hab]
      rw [List.pairwise_cons]
      refine ⟨?_, ih ht⟩
      intro y hy
      rcases mem_pyInsSorted.mp hy with hya | hyt
      · rcases total a b with h1 | h1
        · exact absurd h1 hab
        · rw [hya]; exact h1
      · exact hb y hyt

theorem pairwise_pySortBy {le : α → α → Bool}
    (trans : ∀ a b c, le a b = true → le b c = true → le a c = true)
    (total : ∀ a b, le a b = true ∨ le b a = true)
    (l : List α) :
    (pySortBy le l).Pairwise fun x y => le x y = true := by
  induction l with
  | nil => simp [pySortBy]
  | cons b t ih => exact pairwise_pyInsSorted trans total ih

/-! ## Diagnostic Step Recorder (`store_diagnostic_step`, source lines 86-214)

The remote gateway is modelled by the outcome of each call the recorder makes:
`getSession` (the read-before-write check), `createInvocation` per attempt
index (each retry is a fresh network call), `putInvocationStep` and the
post-write verification `getInvocationStep`.  `Except.error ()` models the
call raising.  Local screenshot files are modelled by a `FileStatus` per path.
Observable effects are collected in an `SEv` trace: gateway calls, the retry
sleep and the warning/error messages (success prints are presentation only and
are not modelled). -/

/-- Status of a local screenshot path: missing, unreadable, or readable with
some byte content (abstracted to a numeric identifier). -/
inductive FileStatus where
  | absent
  | readError
  | content (bytes : Nat)
deriving DecidableEq, Repr

/-- The `diagnostics_data` dict; `Option` models absent keys read with
`dict.get` defaults. -/
structure DiagnosticsData where
  component : Option String
  action : Option String
  result : Option String
  next_steps : Option String
deriving DecidableEq, Repr

/-- A content block of the step payload written by the recorder. -/
inductive CBlock where
  | text (s : String)
  | image (format : String) (bytes : Nat)
deriving DecidableEq, Repr

/-- Observable events of one `store_diagnostic_step` run, in order. -/
inductive SEv where
  | callGetSession
  | errorSessionNotAccessible
  | callCreateInvocation (description : String)
  | warnNoInvocationId
  | warnRetrying
  | sleepOneSecond
  | errorCreateInvocationFailed
  | errorNoValidInvocationId
  | warnImageMissing (path : String)
  | warnImageReadFailed (path : String)
  | callPutInvocationStep (blocks : List CBlock)
  | errorPutStepFailed
  | callGetInvocationStepVerify
  | warnVerifyFailed
deriving DecidableEq, Repr

/-- Gateway behaviour as seen by the recorder.  `createInvocation i` is the
outcome of attempt `i` (`0`-based): raising, or returning a response whose
`invocationId` field is the contained `Option String`. -/
structure StoreGateway where
  getSession : Except Unit Unit
  createInvocation : Nat → Except Unit (Option String)
  putInvocationStep : Except Unit Unit
  getInvocationStep : Except Unit Unit

/-- The markdown-like text block assembled from the four data fields
(source lines 140-147). -/
def formatted_data (engineer_id : String) (d : DiagnosticsData) : String :=
  "## Paso de diagnóstico\n\n" ++
  "**Ingeniero:** " ++ engineer_id ++ "\n" ++
  "**Componente:** " ++ d.component.getD "No especificado" ++ "\n" ++
  "**Acción ejecutada:** " ++ d.action.getD "No especificada" ++ "\n\n" ++
  "**Resultado observado:**\n" ++ d.result.getD "No documentado" ++ "\n\n" ++
  "**Siguiente acción recomendada:**\n" ++ d.next_steps.getD "No definida"

/-- Image format from the file extension: last dot-separated component,
lower-cased, defaulting to `png` when unrecognized (source lines 163-165). -/
def imageFormat (path : String) : String :=
  let img_format := pyLower (pyGetLast (pySplit path "."))
  if ["png", "jpeg", "jpg", "gif", "webp"].contains img_format then img_format else "png"

/-- The screenshot loop (source lines 157-177): readable files contribute one
image block each; missing or unreadable files contribute a warning only. -/
def processScreenshots (fs : String → FileStatus) : List String → List CBlock × List SEv
  | [] => ([], [])
  | path :: rest =>
    let tail := processScreenshots fs rest
    match fs path with
    | .content b => (CBlock.image (imageFormat path) b :: tail.1, tail.2)
    | .absent => (tail.1, SEv.warnImageMissing path :: tail.2)
    | .readError => (tail.1, SEv.warnImageReadFailed path :: tail.2)

/-- Result of the invocation-creation retry loop: a truthy invocation id, the
loop falling through with no valid id (`invocation_id` still falsy after the
range is exhausted), or the `return` inside the `except` branch of the last
attempt. -/
inductive LoopOutcome where
  | got (id : String) (evs : List SEv)
  | exhausted (evs : List SEv)
  | failedExn (evs : List SEv)
deriving DecidableEq, Repr

/-- Prepends events to a loop outcome. -/
def LoopOutcome.withPre (pre : List SEv) : LoopOutcome → LoopOutcome
  | .got i evs => .got i (pre ++ evs)
  | .exhausted evs => .exhausted (pre ++ evs)
  | .failedExn evs => .failedExn (pre ++ evs)

/-- Events of a loop outcome. -/
def LoopOutcome.evs : LoopOutcome → List SEv
  | .got _ evs => evs
  | .exhausted evs => evs
  | .failedExn evs => evs

/-- The `for retry in range(max_retries)` loop of source lines 110-133,
applied to the list of remaining attempt indices.  A malformed response (falsy
`invocationId`) warns and retries immediately (`continue`, no sleep); an
exception warns and sleeps one second unless this was the last attempt, in
which case the function returns with an error message. -/
def createInvLoop (gw : StoreGateway) (description : String) : List Nat → LoopOutcome
  | [] => .exhausted []
  | retry :: rest =>
    match gw.createInvocation retry with
    | .ok idOpt =>
      if pyTruthyStr idOpt then
        .got (idOpt.getD "") [.callCreateInvocation description]
      else
        (createInvLoop gw description rest).withPre
          [.callCreateInvocation description, .warnNoInvocationId]
    | .error _ =>
      if rest.isEmpty then
        .failedExn [.callCreateInvocation description, .errorCreateInvocationFailed]
      else
        (createInvLoop gw description rest).withPre
          [.callCreateInvocation description, .warnRetrying, .sleepOneSecond]

/-- The invocation description assembled on source line 117. -/
def descOf (diagnostics_data : DiagnosticsData) (engineer_id : String) : String :=
  "Diagnóstico en " ++ diagnostics_data.component.getD "sistema desconocido" ++
    " por " ++ engineer_id

/-- The function `store_diagnostic_step` (source lines 86-214).  Returns the
`(success, invocation_id, step_id)` triple and the event trace.  `step_id`
stands for the generated `uuid4` value. -/
def store_diagnostic_step (gw : StoreGateway) (fs : String → FileStatus)
    (engineer_id : String) (diagnostics_data : DiagnosticsData)
    (screenshots : Option (List String)) (step_id : String) :
    (Bool × Option String × Option String) × List SEv :=
  match gw.getSession with
  | .error _ => ((false, none, none), [.callGetSession, .errorSessionNotAccessible])
  | .ok _ =>
    let description := descOf diagnostics_data engineer_id
    match createInvLoop gw description [0, 1, 2] with
    | .failedExn evs => ((false, none, none), .callGetSession :: evs)
    | .exhausted evs =>
      ((false, none, none), .callGetSession :: evs ++ [.errorNoValidInvocationId])
    | .got invocation_id evs =>
      let fd := formatted_data engineer_id diagnostics_data
      let shot := processScreenshots fs (screenshots.getD [])
      let content_blocks := CBlock.text fd :: shot.1
      match gw.putInvocationStep with
      | .error _ =>
        ((false, some invocation_id, none),
          .callGetSession :: evs ++ shot.2 ++
            [.callPutInvocationStep content_blocks, .errorPutStepFailed])
      | .ok _ =>
        match gw.getInvocationStep with
        | .error _ =>
          ((true, some invocation_id, some step_id),
            .callGetSession :: evs ++ shot.2 ++
              [.callPutInvocationStep content_blocks, .callGetInvocationStepVerify,
                .warnVerifyFailed])
        | .ok _ =>
          ((true, some invocation_id, some step_id),
            .callGetSession :: evs ++ shot.2 ++
              [.callPutInvocationStep content_blocks, .callGetInvocationStepVerify])

/-! ## Diagnostic Context Reconstructor (`retrieve_diagnostic_context`, source lines 216-427)

The remote session state is modelled as the data the gateway returns:
the session record, the invocation summary list, and per invocation the step
summary list together with the outcome of fetching the detail of each step.
`Option` fields model dictionary keys that may be absent; `Except.error ()`
models a call raising.  All timestamp values are modelled as the ISO strings
the client compares and sorts.

Python `list.sort`/`sorted` raise `TypeError` as soon as a comparison involves
`None`; for two or more elements every element takes part in at least one
comparison, so the final timeline sort (whose keys may be `None` when an
invocation summary has no `createdAt`) raises exactly when the timeline has at
least two entries and at least one `None` timestamp, which the top-level
`except` turns into an overall `None` result.  The other two final sorts key on
strings that always exist (defaulted to `""`), so they never raise.

Python `set` iteration order is not part of its contract; `componentsTested`
models `set.add` by an order-preserving duplicate-free insertion, which agrees
with the set on membership and element count. -/

/-- The metadata map of a session, as read by the reconstructor. -/
structure SessionMetadataR where
  incidentId : Option String
  systemAffected : Option String
  severity : Option String
deriving DecidableEq, Repr

/-- A session record; `sessionMetadata`/`metadata` model the two field names
the source tolerates (lines 240-250). -/
structure SessionRecord where
  sessionMetadata : Option SessionMetadataR
  metadata : Option SessionMetadataR
  creationDateTime : Option String
  endDateTime : Option String
deriving DecidableEq, Repr

/-- The `image` member of a content block. -/
structure RImage where
  format : Option String
deriving DecidableEq, Repr

/-- A content block of a fetched step; a dict that may carry a `text` member,
an `image` member, both, or neither (lines 328-370 test the two keys
independently). -/
structure RBlock where
  text : Option String
  image : Option RImage
deriving DecidableEq, Repr

/-- The `payload` member of a step detail; `contentBlocks` may be absent. -/
structure StepPayload where
  contentBlocks : Option (List RBlock)
deriving DecidableEq, Repr

/-- A fetched step detail (after the `invocationStep` unwrapping of
lines 313-316, which is pure response-shape normalization). -/
structure StepDetail where
  payload : Option StepPayload
  invocationStepTime : Option String
deriving DecidableEq, Repr

deriving instance DecidableEq for Except

/-- One entry of the step summary listing, together with the outcome of the
`get_invocation_step` fetch for it (`Except.error ()` when that call raises,
including the case of a missing step id being passed through). -/
structure StepEntry where
  invocationStepId : Option String
  invocationStepTime : Option String
  fetch : Except Unit StepDetail
deriving DecidableEq, Repr

/-- One entry of the invocation summary listing; `listSteps` is the outcome of
listing its steps. -/
structure InvEntry where
  invocationId : Option String
  createdAt : Option String
  description : Option String
  listSteps : Except Unit (List StepEntry)
deriving DecidableEq, Repr

/-- Outcome of the initial `get_session` call: the session does not exist
(`ResourceNotFoundException`), some other client error, or the record. -/
inductive GetSessionResult where
  | notFound
  | otherClientError
  | ok (s : SessionRecord)
deriving DecidableEq, Repr

/-- The remote state visible to one `retrieve_diagnostic_context` run. -/
structure RGateway where
  getSession : GetSessionResult
  listInvocations : Except Unit (List InvEntry)
deriving DecidableEq, Repr

/-- The `incidentInfo` record of the reconstructed context. -/
structure IncidentInfo where
  incidentId : String
  systemAffected : String
  severity : String
  startedAt : String
  status : String
deriving DecidableEq, Repr

/-- An image reference attached to a timeline step. -/
structure ImageRef where
  stepId : Option String
  format : String
deriving DecidableEq, Repr

/-- One step inside a timeline entry. -/
structure TimelineStep where
  timestamp : String
  textContent : String
  hasImages : Bool
  imageRefs : List ImageRef
deriving DecidableEq, Repr

/-- One timeline entry (one invocation); `timestamp` is the invocation
`createdAt`, which may be absent. -/
structure TimelineEntry where
  timestamp : Option String
  description : String
  engineer : String
  steps : List TimelineStep
deriving DecidableEq, Repr

/-- An extracted hypothesis record. -/
structure HypothesisRecord where
  text : String
  timestamp : String
  engineer : String
deriving DecidableEq, Repr

/-- A screenshot reference record. -/
structure ScreenshotRecord where
  stepId : Option String
  invocationId : String
  timestamp : String
  associatedText : String
deriving DecidableEq, Repr

/-- The reconstructed diagnostic context. -/
structure DiagnosticContext where
  incidentInfo : IncidentInfo
  diagnosticTimeline : List TimelineEntry
  hypotheses : List HypothesisRecord
  componentsTested : List String
  screenshots : List ScreenshotRecord
deriving DecidableEq, Repr

/-- Component extraction from a text block (source lines 332-344): fires when
the text contains `componente:` case-insensitively or `Componente:` exactly,
takes what follows the first matching marker up to the next line break,
trimmed (the case-insensitive fallback branch extracts from the lower-cased
text), and yields nothing when the result is empty. -/
def extractComponent (tc : String) : Option String :=
  if hasSub (pyLower tc) "componente:" || hasSub tc "Componente:" then
    let component :=
      if hasSub tc "Componente:" then
        pyTrim (pyGet (pySplit (pyGet (pySplit tc "Componente:") 1) "\n") 0)
      else if hasSub (pyLower tc) "componente:" then
        pyTrim (pyGet (pySplit (pyGet (pySplit (pyLower tc) "componente:") 1) "\n") 0)
      else ""
    if component != "" then some component else none
  else none

/-- Engineer extraction from a hypothesis text block (source lines 349-351):
the text after the first `Ingeniero:` (exact case) up to the next line break,
trimmed; `Unknown` when the marker is absent. -/
def engineerFromText (tc : String) : String :=
  if hasSub tc "Ingeniero:" then
    pyTrim (pyGet (pySplit (pyGet (pySplit tc "Ingeniero:") 1) "\n") 0)
  else "Unknown"

/-- Hypothesis extraction from a text block (source lines 346-357): fires when
the lower-cased text contains `hipótesis`. -/
def scanHypothesis (tc ts : String) : Option HypothesisRecord :=
  if hasSub (pyLower tc) "hipótesis" then
    some { text := tc, timestamp := ts, engineer := engineerFromText tc }
  else none

/-- Mutable state of the content-block loop of one step (source lines 325-370):
the running `text_content`, the `images` list, and the records appended to the
context-wide components/hypotheses/screenshots collections, in order. -/
structure BlockAcc where
  text_content : String
  images : List ImageRef
  comps : List String
  hyps : List HypothesisRecord
  shots : List ScreenshotRecord
deriving DecidableEq, Repr

/-- Processing of one content block (source lines 328-370).  A `text` member
updates `text_content` and may append a component candidate and a hypothesis
record; an `image` member appends an image reference and a screenshot record
whose `associatedText` truncates the current `text_content` to 100
characters. -/
def processBlock (invocation_id : String) (step_id : Option String) (ts : String)
    (acc : BlockAcc) (block : RBlock) : BlockAcc :=
  let acc1 :=
    match block.text with
    | none => acc
    | some tc =>
      let comps1 :=
        match extractComponent tc with
        | some c => acc.comps ++ [c]
        | none => acc.comps
      let hyps1 :=
        match scanHypothesis tc ts with
        | some h => acc.hyps ++ [h]
        | none => acc.hyps
      { acc with text_content := tc, comps := comps1, hyps := hyps1 }
  match block.image with
  | none => acc1
  | some img =>
    { acc1 with
      images := acc1.images ++ [{ stepId := step_id, format := img.format.getD "unknown" }],
      shots := acc1.shots ++
        [{ stepId := step_id, invocationId := invocation_id, timestamp := ts,
           associatedText :=
             if pyLen acc1.text_content > 100 then pyTake acc1.text_content 100 ++ "..."
             else acc1.text_content }] }

/-- What one step contributes: its timeline entry and the records it appends
to the context-wide collections. -/
structure StepResult where
  step : TimelineStep
  comps : List String
  hyps : List HypothesisRecord
  shots : List ScreenshotRecord
deriving DecidableEq, Repr

/-- Processing of one step (source lines 301-381): `none` when the step is
skipped with a warning — the fetch raised, or the detail has no
`payload`/`contentBlocks`. -/
def processStep (invocation_id : String) (entry : StepEntry) : Option StepResult :=
  match entry.fetch with
  | .error _ => none
  | .ok step_details =>
    match step_details.payload with
    | none => none
    | some payload =>
      match payload.contentBlocks with
      | none => none
      | some content_blocks =>
        let ts := step_details.invocationStepTime.getD ""
        let acc := content_blocks.foldl
          (processBlock invocation_id entry.invocationStepId ts)
          { text_content := "", images := [], comps := [], hyps := [], shots := [] }
        some
          { step :=
              { timestamp := ts, textContent := acc.text_content,
                hasImages := acc.images.length > 0, imageRefs := acc.images },
            comps := acc.comps, hyps := acc.hyps, shots := acc.shots }

/-- Sort key of a step summary (source line 301). -/
def stepSortKey (s : StepEntry) : String := s.invocationStepTime.getD ""

/-- Sort key of an invocation summary (source line 277). -/
def invSortKey (x : InvEntry) : String := x.createdAt.getD ""

/-- Comparator of the step summary sort. -/
def stepLeE (a b : StepEntry) : Bool := strLe (stepSortKey a) (stepSortKey b)

/-- Comparator of the invocation summary sort. -/
def invLe (a b : InvEntry) : Bool := strLe (invSortKey a) (invSortKey b)

/-- What one invocation contributes: its timeline entry and the records its
steps append to the context-wide collections. -/
structure InvResult where
  entry : TimelineEntry
  comps : List String
  hyps : List HypothesisRecord
  shots : List ScreenshotRecord
deriving DecidableEq, Repr

/-- Processing of one invocation (source lines 277-397): `none` when the
invocation is skipped with a warning — no `invocationId` (the `KeyError` of
line 280) or the step listing raised.  Steps are sorted ascending by their
summary `invocationStepTime` (missing sorts as `""`); the engineer is the
second `por `-separated piece of the description when the description is
truthy and contains `por `, else `Unknown`. -/
def processInvocation (inv : InvEntry) : Option InvResult :=
  match inv.invocationId with
  | none => none
  | some invocation_id =>
    let creation_time := inv.createdAt
    let description := inv.description.getD ("Invocación " ++ invocation_id)
    match inv.listSteps with
    | .error _ => none
    | .ok invocation_steps =>
      let sortedSteps := pySortBy stepLeE invocation_steps
      let results := sortedSteps.filterMap (processStep invocation_id)
      let engineer :=
        if description != "" && hasSub description "por " then
          pyGet (pySplit description "por ") 1
        else "Unknown"
      some
        { entry :=
            { timestamp := creation_time, description := description,
              engineer := engineer, steps := results.map (·.step) },
          comps := (results.map (·.comps)).flatten,
          hyps := (results.map (·.hyps)).flatten,
          shots := (results.map (·.shots)).flatten }

/-- Python `set.add` modelled as order-preserving duplicate-free insertion. -/
def pyAddToSet (l : List String) (s : String) : List String :=
  if s ∈ l then l else l ++ [s]

/-- Sort key of a timeline entry for the final sort (source line 403); in the
non-raising case every key is present (or the list is a singleton), so the
`""` default is never compared. -/
def entrySortKey (e : TimelineEntry) : String := e.timestamp.getD ""

/-- Comparator of the final timeline sort. -/
def entLe (a b : TimelineEntry) : Bool := strLe (entrySortKey a) (entrySortKey b)

/-- Comparator of the final hypothesis sort (source line 404). -/
def hypLe (a b : HypothesisRecord) : Bool := strLe a.timestamp b.timestamp

/-- Comparator of the final screenshot sort (source line 405). -/
def shotLe (a b : ScreenshotRecord) : Bool := strLe a.timestamp b.timestamp

/-- The invocation loop of source lines 277-397: invocations sorted ascending
by `createdAt` (missing sorts as `""`), processed in order, skipped entries
dropped. -/
def reconstructCore (invocations : List InvEntry) : List InvResult :=
  (pySortBy invLe invocations).filterMap processInvocation

/-- The incident info of source lines 234-269: tolerant metadata lookup with
`Unknown` defaults, `startedAt` defaulting to the current time, status from
the truthiness of `endDateTime`. -/
def buildIncidentInfo (session : SessionRecord) (now : String) : IncidentInfo :=
  let incident_metadata :=
    match session.sessionMetadata with
    | some m => m
    | none =>
      match session.metadata with
      | some m => m
      | none => { incidentId := none, systemAffected := none, severity := none }
  { incidentId := incident_metadata.incidentId.getD "Unknown",
    systemAffected := incident_metadata.systemAffected.getD "Unknown",
    severity := incident_metadata.severity.getD "Unknown",
    startedAt := session.creationDateTime.getD now,
    status := if pyTruthyStr session.endDateTime then "Closed" else "Active" }

/-- Final assembly (source lines 262-415) after the session record and the
invocation listing were fetched successfully. -/
def buildContext (session : SessionRecord) (invocations : List InvEntry)
    (now : String) : Option DiagnosticContext :=
  let results := reconstructCore invocations
  let timeline := results.map (·.entry)
  if 2 ≤ timeline.length ∧ timeline.any (fun e => e.timestamp.isNone) = true then
    none
  else
    some
      { incidentInfo := buildIncidentInfo session now,
        diagnosticTimeline := pySortBy entLe timeline,
        hypotheses := pySortBy hypLe ((results.map (·.hyps)).flatten),
        componentsTested := ((results.map (·.comps)).flatten).foldl pyAddToSet [],
        screenshots := pySortBy shotLe ((results.map (·.shots)).flatten) }

/-- The function `retrieve_diagnostic_context` (source lines 216-427).  `now` models
`datetime.now().isoformat()`, used only as the `startedAt` default.  Returns
`none` exactly where the source returns `None`: the initial `get_session`
raising (not found or any other client error), `list_invocations` raising, or
the final timeline sort raising on `None` keys. -/
def retrieve_diagnostic_context (gw : RGateway) (now : String) :
    Option DiagnosticContext :=
  match gw.getSession with
  | .notFound => none
  | .otherClientError => none
  | .ok session =>
    match gw.listInvocations with
    | .error _ => none
    | .ok invocations => buildContext session invocations now

/-! ## Session deletion (`delete_diagnostic_session`, source lines 488-530)

The interactive `Confirm.ask` answer is an explicit input; the gateway is the
outcome of `delete_session`.  The audit record is printed locally (a `logAudit`
trace event) before the confirmation prompt; the only gateway call in this
function is `callDeleteSession`. -/

/-- The local audit record of source lines 502-508. -/
structure AuditLog where
  action : String
  session_id : String
  timestamp : String
  reason : String
  approver : String
deriving DecidableEq, Repr

/-- Observable events of one `delete_diagnostic_session` run. -/
inductive DEv where
  | logAudit (a : AuditLog)
  | cancelledByUser
  | callDeleteSession (sid : String)
  | errorDeleteFailed
deriving DecidableEq, Repr

/-- True exactly for the events that are calls to the remote gateway. -/
def DEv.isGatewayCall : DEv → Bool
  | .callDeleteSession _ => true
  | _ => false

/-- Gateway behaviour as seen by the deletion routine. -/
structure DeleteGateway where
  deleteSession : Except Unit Unit

/-- The function `delete_diagnostic_session` (source lines 488-530).  `now` models
`datetime.now().isoformat()` in the audit record; `confirm` is the interactive
confirmation answer. -/
def delete_diagnostic_session (gw : DeleteGateway)
    (session_identifier reason approver_id now : String) (confirm : Bool) :
    Bool × List DEv :=
  let audit_log : AuditLog :=
    { action := "session_deletion", session_id := session_identifier,
      timestamp := now, reason := reason, approver := approver_id }
  if !confirm then (false, [.logAudit audit_log, .cancelledByUser])
  else
    match gw.deleteSession with
    | .ok _ => (true, [.logAudit audit_log, .callDeleteSession session_identifier])
    | .error _ =>
      (false, [.logAudit audit_log, .callDeleteSession session_identifier,
        .errorDeleteFailed])

/-! ## Helper observations used by the claims -/

/-- True exactly for `create_invocation` call events. -/
def SEv.isCreateInvocation : SEv → Bool
  | .callCreateInvocation _ => true
  | _ => false

/-- True exactly for the retry-backoff sleep event. -/
def SEv.isSleep : SEv → Bool
  | .sleepOneSecond => true
  | _ => false

/-- Number of trace events satisfying `p`. -/
def countEv (p : SEv → Bool) (l : List SEv) : Nat := (l.filter p).length

/-- The content blocks of a `put_invocation_step` call event, if any. -/
def putBlocksOf : SEv → Option (List CBlock)
  | .callPutInvocationStep blocks => some blocks
  | _ => none

/-- An invocation-creation attempt outcome that raised. -/
def attemptExn : Except Unit (Option String) → Bool
  | .error _ => true
  | .ok _ => false

/-- An invocation-creation attempt outcome that returned without a truthy
`invocationId` (malformed response). -/
def attemptMalformed : Except Unit (Option String) → Bool
  | .ok idOpt => !pyTruthyStr idOpt
  | .error _ => false

/-- An invocation-creation attempt that failed either way. -/
def attemptFailed (r : Except Unit (Option String)) : Bool :=
  attemptExn r || attemptMalformed r

/-- The `invocationStepTime` of the fetched step detail, defaulted to `""`
as the source reads it; `""` for steps whose fetch raised (they are skipped,
so the value is never used). -/
def stepDisplayTime (se : StepEntry) : String :=
  match se.fetch with
  | .ok d => d.invocationStepTime.getD ""
  | .error _ => ""

/-- The step listing of an invocation entry, empty when the listing raised. -/
def invStepsOf (inv : InvEntry) : List StepEntry :=
  match inv.listSteps with
  | .ok l => l
  | .error _ => []

/-- A step summary whose `invocationStepTime` agrees with the time stored in
its fetched detail (always the case for steps written by
`put_invocation_step`, which sends a single time). -/
def stepTimesAgreeB (se : StepEntry) : Bool :=
  match se.fetch with
  | .ok d => se.invocationStepTime.getD "" == d.invocationStepTime.getD ""
  | .error _ => true

/-- All steps of all invocations have agreeing summary and detail times. -/
def sessionTimesAgreeB (invs : List InvEntry) : Bool :=
  invs.all fun inv => (invStepsOf inv).all stepTimesAgreeB

/-- Invocation creation order is consistent with step times: whenever
invocation `a` sorts no later than invocation `b` by `createdAt`, every step
time of `a` is no later than every step time of `b`.  This holds for sessions
written through `store_diagnostic_step`, which creates one fresh invocation
immediately before writing each step with the current time. -/
def crossConsistentB (invs : List InvEntry) : Bool :=
  invs.all fun a => invs.all fun b =>
    !(strLe (invSortKey a) (invSortKey b)) ||
      (invStepsOf a).all fun sa => (invStepsOf b).all fun sb =>
        strLe (stepDisplayTime sa) (stepDisplayTime sb)

/-- The flattened step sequence of a reconstructed timeline: the steps of the
first timeline entry, then the second, and so on. -/
def flatSteps (c : DiagnosticContext) : List TimelineStep :=
  (c.diagnosticTimeline.map (·.steps)).flatten

/-! ## Supporting lemmas -/

theorem entLe_trans : ∀ a b c, entLe a b = true → entLe b c = true → entLe a c = true :=
  fun _ _ _ => strLe_trans _ _ _

theorem entLe_total : ∀ a b, entLe a b = true ∨ entLe b a = true :=
  fun _ _ => strLe_total _ _

theorem stepLeE_trans : ∀ a b c, stepLeE a b = true → stepLeE b c = true → stepLeE a c = true :=
  fun _ _ _ => strLe_trans _ _ _

theorem stepLeE_total : ∀ a b, stepLeE a b = true ∨ stepLeE b a = true :=
  fun _ _ => strLe_total _ _

theorem evs_withPre (pre : List SEv) (o : LoopOutcome) :
    (o.withPre pre).evs = pre ++ o.evs := by
  cases o <;> rfl

theorem countEv_append (p : SEv → Bool) (a b : List SEv) :
    countEv p (a ++ b) = countEv p a + countEv p b := by
  simp [countEv, List.filter_append]

theorem retrieve_some {gw : RGateway} {now : String} {c : DiagnosticContext}
    (h : retrieve_diagnostic_context gw now = some c) :
    ∃ session invocations, gw.getSession = GetSessionResult.ok session ∧
      gw.listInvocations = Except.ok invocations ∧
      buildContext session invocations now = some c := by
  unfold retrieve_diagnostic_context at h
  cases hgs : gw.getSession with
  | notFound => rw [hgs] at h; exact absurd h (by simp)
  | otherClientError => rw [hgs] at h; exact absurd h (by simp)
  | ok session =>
    rw [hgs] at h
    cases hli : gw.listInvocations with
    | error e => rw [hli] at h; exact absurd h (by simp)
    | ok invocations => rw [hli] at h; exact ⟨session, invocations, rfl, rfl, h⟩

theorem buildContext_fields {session : SessionRecord} {invocations : List InvEntry}
    {now : String} {c : DiagnosticContext}
    (h : buildContext session invocations now = some c) :
    c.incidentInfo = buildIncidentInfo session now ∧
    c.diagnosticTimeline = pySortBy entLe ((reconstructCore invocations).map (·.entry)) ∧
    c.hypotheses = pySortBy hypLe (((reconstructCore invocations).map (·.hyps)).flatten) ∧
    c.componentsTested =
      ((((reconstructCore invocations).map (·.comps)).flatten).foldl pyAddToSet []) ∧
    c.screenshots = pySortBy shotLe (((reconstructCore invocations).map (·.shots)).flatten) := by
  simp only [buildContext] at h
  split at h
  · exact absurd h (by simp)
  · injection h with h
    subst h
    exact ⟨rfl, rfl, rfl, rfl, rfl⟩

theorem processStep_fetch_ok {iid : String} {se : StepEntry} {r : StepResult}
    (h : processStep iid se = some r) : ∃ d, se.fetch = Except.ok d := by
  cases hf : se.fetch with
  | ok d => exact ⟨d, rfl⟩
  | error e => unfold processStep at h; rw [hf] at h; exact absurd h (by simp)

theorem processStep_step_timestamp {iid : String} {se : StepEntry} {r : StepResult}
    (h : processStep iid se = some r) : r.step.timestamp = stepDisplayTime se := by
  unfold processStep at h
  split at h
  · exact absurd h (by simp)
  next d hf =>
    split at h
    · exact absurd h (by simp)
    next p hp =>
      split at h
      · exact absurd h (by simp)
      next blocks hcb =>
        injection h with h
        subst h
        simp [stepDisplayTime, hf]

theorem stepKey_eq_display {se : StepEntry} {d : StepDetail}
    (hf : se.fetch = Except.ok d) (h : stepTimesAgreeB se = true) :
    stepSortKey se = stepDisplayTime se := by
  unfold stepTimesAgreeB at h
  rw [hf] at h
  unfold stepSortKey stepDisplayTime
  rw [hf]
  exact eq_of_beq h

theorem invStepsOf_eq {inv : InvEntry} {steps : List StepEntry}
    (h : inv.listSteps = Except.ok steps) : invStepsOf inv = steps := by
  unfold invStepsOf; rw [h]

theorem processInvocation_fields {inv : InvEntry} {r : InvResult}
    (h : processInvocation inv = some r) :
    r.entry.timestamp = inv.createdAt ∧
    (∀ s ∈ r.entry.steps, ∃ se ∈ invStepsOf inv, s.timestamp = stepDisplayTime se) ∧
    r.entry.engineer =
      (if r.entry.description != "" && hasSub r.entry.description "por " then
        pyGet (pySplit r.entry.description "por ") 1
      else "Unknown") := by
  unfold processInvocation at h
  split at h
  · exact absurd h (by simp)
  next iid hid =>
    split at h
    · exact absurd h (by simp)
    next steps hls =>
      injection h with h
      subst h
      refine ⟨rfl, ?_, rfl⟩
      intro s hs
      rcases List.mem_map.mp hs with ⟨sr, hsr, hse⟩
      rcases List.mem_filterMap.mp hsr with ⟨se, hsein, hps⟩
      refine ⟨se, ?_, ?_⟩
      · rw [invStepsOf_eq hls]
        exact mem_pySortBy.mp hsein
      · rw [← hse]
        exact processStep_step_timestamp hps

theorem processInvocation_steps_sorted {inv : InvEntry} {r : InvResult}
    (h : processInvocation inv = some r)
    (hag : (invStepsOf inv).all stepTimesAgreeB = true) :
    r.entry.steps.Pairwise fun s t => strLe s.timestamp t.timestamp = true := by
  unfold processInvocation at h
  split at h
  · exact absurd h (by simp)
  next iid hid =>
    split at h
    · exact absurd h (by simp)
    next steps hls =>
      injection h with h
      subst h
      rw [invStepsOf_eq hls] at hag
      show (((pySortBy stepLeE steps).filterMap (processStep iid)).map (·.step)).Pairwise _
      rw [List.map_filterMap, List.pairwise_filterMap]
      have hsorted := pairwise_pySortBy stepLeE_trans stepLeE_total steps
      refine hsorted.imp_of_mem ?_
      intro a b ha hb hab x hx y hy
      rcases Option.map_eq_some'.mp (Option.mem_def.mp hx) with ⟨ra, hra, hxa⟩
      rcases Option.map_eq_some'.mp (Option.mem_def.mp hy) with ⟨rb, hrb, hyb⟩
      subst hxa
      subst hyb
      rcases processStep_fetch_ok hra with ⟨da, hda⟩
      rcases processStep_fetch_ok hrb with ⟨db, hdb⟩
      have hka := stepKey_eq_display hda (List.all_eq_true.mp hag a (mem_pySortBy.mp ha))
      have hkb := stepKey_eq_display hdb (List.all_eq_true.mp hag b (mem_pySortBy.mp hb))
      rw [processStep_step_timestamp hra, processStep_step_timestamp hrb, ← hka, ← hkb]
      exact hab

/-- Soundness predicate of an extracted hypothesis record: its text contains
`hipótesis` case-insensitively and its engineer was derived from its text by
the `Ingeniero:` extraction. -/
def hypOk (h : HypothesisRecord) : Prop :=
  hasSub (pyLower h.text) "hipótesis" = true ∧ h.engineer = engineerFromText h.text

theorem scanHypothesis_sound {tc ts : String} {h : HypothesisRecord}
    (hs : scanHypothesis tc ts = some h) :
    h = { text := tc, timestamp := ts, engineer := engineerFromText tc } ∧
      hasSub (pyLower tc) "hipótesis" = true := by
  unfold scanHypothesis at hs
  split at hs
  next hguard =>
    injection hs with hs
    exact ⟨hs.symm, hguard⟩
  · exact absurd hs (by simp)

theorem processBlock_hyps_sound {iid : String} {sid : Option String} {ts : String}
    {acc : BlockAcc} {blk : RBlock} {h : HypothesisRecord}
    (hmem : h ∈ (processBlock iid sid ts acc blk).hyps) :
    h ∈ acc.hyps ∨ (hypOk h ∧ h.timestamp = ts) := by
  unfold processBlock at hmem
  cases hbi : blk.image with
  | some img =>
    rw [hbi] at hmem
    simp only [] at hmem
    cases hbt : blk.text with
    | none => rw [hbt] at hmem; exact .inl hmem
    | some tc =>
      rw [hbt] at hmem
      simp only [] at hmem
      cases hsc : scanHypothesis tc ts with
      | none => rw [hsc] at hmem; exact .inl hmem
      | some h0 =>
        rw [hsc] at hmem
        rcases List.mem_append.mp hmem with hin | hone
        · exact .inl hin
        · rcases scanHypothesis_sound hsc with ⟨rfl, hg⟩
          rcases List.mem_singleton.mp hone with rfl
          exact .inr ⟨⟨hg, rfl⟩, rfl⟩
  | none =>
    rw [hbi] at hmem
    simp only [] at hmem
    cases hbt : blk.text with
    | none => rw [hbt] at hmem; exact .inl hmem
    | some tc =>
      rw [hbt] at hmem
      simp only [] at hmem
      cases hsc : scanHypothesis tc ts with
      | none => rw [hsc] at hmem; exact .inl hmem
      | some h0 =>
        rw [hsc] at hmem
        rcases List.mem_append.mp hmem with hin | hone
        · exact .inl hin
        · rcases scanHypothesis_sound hsc with ⟨rfl, hg⟩
          rcases List.mem_singleton.mp hone with rfl
          exact .inr ⟨⟨hg, rfl⟩, rfl⟩

theorem foldl_processBlock_hyps {iid : String} {sid : Option String} {ts : String}
    (blocks : List RBlock) (acc : BlockAcc) {h : HypothesisRecord}
    (hmem : h ∈ (blocks.foldl (processBlock iid sid ts) acc).hyps) :
    h ∈ acc.hyps ∨ (hypOk h ∧ h.timestamp = ts) := by
  induction blocks generalizing acc with
  | nil => exact .inl hmem
  | cons b bs ih =>
    rcases ih (processBlock iid sid ts acc b) hmem with hin | hok
    · exact processBlock_hyps_sound hin
    · exact .inr hok

theorem processStep_hyps_sound {iid : String} {se : StepEntry} {r : StepResult}
    (h : processStep iid se = some r) : ∀ x ∈ r.hyps, hypOk x := by
  unfold processStep at h
  split at h
  · exact absurd h (by simp)
  next d hf =>
    split at h
    · exact absurd h (by simp)
    next p hp =>
      split at h
      · exact absurd h (by simp)
      next blocks hcb =>
        injection h with h
        subst h
        intro x hx
        rcases foldl_processBlock_hyps blocks _ hx with hin | hok
        · exact absurd hin (by simp)
        · exact hok.1

theorem processInvocation_hyps_sound {inv : InvEntry} {r : InvResult}
    (h : processInvocation inv = some r) : ∀ x ∈ r.hyps, hypOk x := by
  unfold processInvocation at h
  split at h
  · exact absurd h (by simp)
  next iid hid =>
    split at h
    · exact absurd h (by simp)
    next steps hls =>
      injection h with h
      subst h
      intro x hx
      rcases List.mem_flatten.mp hx with ⟨l, hl, hxl⟩
      rcases List.mem_map.mp hl with ⟨sr, hsr, rfl⟩
      rcases List.mem_filterMap.mp hsr with ⟨se, _, hps⟩
      exact processStep_hyps_sound hps x hxl

theorem nodup_foldl_pyAddToSet (l : List String) :
    ∀ init : List String, init.Nodup → (l.foldl pyAddToSet init).Nodup := by
  induction l with
  | nil => intro init h; exact h
  | cons s t ih =>
    intro init h
    refine ih _ ?_
    unfold pyAddToSet
    split
    · exact h
    next hs =>
      refine h.append (List.nodup_singleton s) ?_
      intro a ha hb
      rcases List.mem_singleton.mp hb with rfl
      exact hs ha

theorem mem_timeline_inv {invs : List InvEntry} {e : TimelineEntry}
    (he : e ∈ (reconstructCore invs).map (·.entry)) :
    ∃ inv ∈ invs, ∃ r : InvResult, processInvocation inv = some r ∧ r.entry = e := by
  rcases List.mem_map.mp he with ⟨r, hr, hre⟩
  rcases List.mem_filterMap.mp hr with ⟨inv, hinv, hpi⟩
  exact ⟨inv, mem_pySortBy.mp hinv, r, hpi, hre⟩

theorem buildContext_isSome {session : SessionRecord} {invs : List InvEntry} {now : String}
    (h3 : invs.all (fun i => i.createdAt.isSome) = true) :
    (buildContext session invs now).isSome = true := by
  simp only [buildContext]
  split
  next hcond =>
    exfalso
    obtain ⟨_, hany⟩ := hcond
    rw [List.any_eq_true] at hany
    obtain ⟨e, he, hnone⟩ := hany
    rcases mem_timeline_inv he with ⟨inv, hinv, r, hpi, hre⟩
    have hts := (processInvocation_fields hpi).1
    have hsome := List.all_eq_true.mp h3 inv hinv
    rw [← hre, hts] at hnone
    cases hcr : inv.createdAt with
    | none => rw [hcr] at hsome; simp at hsome
    | some v => rw [hcr] at hnone; simp at hnone
  · simp

theorem createInvLoop_cons_ok {gw : StoreGateway} (d : String) (r : Nat) (rest : List Nat)
    {idOpt : Option String} (hc : gw.createInvocation r = Except.ok idOpt) :
    createInvLoop gw d (r :: rest) =
      if pyTruthyStr idOpt = true then
        LoopOutcome.got (idOpt.getD "") [SEv.callCreateInvocation d]
      else
        (createInvLoop gw d rest).withPre
          [SEv.callCreateInvocation d, SEv.warnNoInvocationId] := by
  conv_lhs => unfold createInvLoop
  rw [hc]

theorem createInvLoop_cons_error {gw : StoreGateway} (d : String) (r : Nat) (rest : List Nat)
    (hc : gw.createInvocation r = Except.error ()) :
    createInvLoop gw d (r :: rest) =
      if rest.isEmpty = true then
        LoopOutcome.failedExn [SEv.callCreateInvocation d, SEv.errorCreateInvocationFailed]
      else
        (createInvLoop gw d rest).withPre
          [SEv.callCreateInvocation d, SEv.warnRetrying, SEv.sleepOneSecond] := by
  conv_lhs => unfold createInvLoop
  rw [hc]

theorem createInvLoop_create_count (gw : StoreGateway) (d : String) :
    ∀ l : List Nat, countEv SEv.isCreateInvocation (createInvLoop gw d l).evs ≤ l.length := by
  intro l
  induction l with
  | nil => simp [createInvLoop, LoopOutcome.evs, countEv]
  | cons r rest ih =>
    cases hc : gw.createInvocation r with
    | ok idOpt =>
      rw [createInvLoop_cons_ok d r rest hc]
      by_cases ht : pyTruthyStr idOpt = true
      · rw [if_pos ht]
        simp [LoopOutcome.evs, countEv, List.filter, SEv.isCreateInvocation]
      · rw [if_neg ht, evs_withPre, countEv_append]
        have hpre : countEv SEv.isCreateInvocation
            [SEv.callCreateInvocation d, SEv.warnNoInvocationId] = 1 := by
          simp [countEv, List.filter, SEv.isCreateInvocation]
        rw [hpre]
        simp only [List.length_cons]
        omega
    | error e =>
      rw [createInvLoop_cons_error d r rest hc]
      by_cases hr : rest.isEmpty = true
      · rw [if_pos hr]
        simp [LoopOutcome.evs, countEv, List.filter, SEv.isCreateInvocation]
      · rw [if_neg hr, evs_withPre, countEv_append]
        have hpre : countEv SEv.isCreateInvocation
            [SEv.callCreateInvocation d, SEv.warnRetrying, SEv.sleepOneSecond] = 1 := by
          simp [countEv, List.filter, SEv.isCreateInvocation]
        rw [hpre]
        simp only [List.length_cons]
        omega

theorem createInvLoop_no_sleep (gw : StoreGateway) (d : String) :
    ∀ l : List Nat, (∀ i ∈ l, attemptExn (gw.createInvocation i) = false) →
      countEv SEv.isSleep (createInvLoop gw d l).evs = 0 := by
  intro l
  induction l with
  | nil => intro _; simp [createInvLoop, LoopOutcome.evs, countEv]
  | cons r rest ih =>
    intro hall
    cases hc : gw.createInvocation r with
    | ok idOpt =>
      rw [createInvLoop_cons_ok d r rest hc]
      by_cases ht : pyTruthyStr idOpt = true
      · rw [if_pos ht]
        simp [LoopOutcome.evs, countEv, List.filter, SEv.isSleep]
      · rw [if_neg ht, evs_withPre, countEv_append]
        have hpre : countEv SEv.isSleep
            [SEv.callCreateInvocation d, SEv.warnNoInvocationId] = 0 := by
          simp [countEv, List.filter, SEv.isSleep]
        rw [hpre, ih fun i hi => hall i (List.mem_cons_of_mem r hi)]
    | error e =>
      have hx := hall r (List.mem_cons_self r rest)
      rw [hc] at hx
      simp [attemptExn] at hx

theorem createInvLoop_not_got (gw : StoreGateway) (d : String) :
    ∀ l : List Nat, (∀ i ∈ l, attemptFailed (gw.createInvocation i) = true) →
      ∀ id evs, createInvLoop gw d l ≠ LoopOutcome.got id evs := by
  intro l
  induction l with
  | nil => intro _ id evs h; exact absurd h (by simp [createInvLoop])
  | cons r rest ih =>
    intro hall id evs h
    have hr := hall r (List.mem_cons_self r rest)
    cases hc : gw.createInvocation r with
    | ok idOpt =>
      rw [createInvLoop_cons_ok d r rest hc] at h
      rw [hc] at hr
      have ht : pyTruthyStr idOpt = false := by
        simp [attemptFailed, attemptExn, attemptMalformed] at hr
        simp [hr]
      rw [ht] at h
      simp only [Bool.false_eq_true, if_false] at h
      cases hlo : createInvLoop gw d rest with
      | got i e =>
        exact ih (fun i hi => hall i (List.mem_cons_of_mem r hi)) i e hlo
      | exhausted e => rw [hlo] at h; exact absurd h (by simp [LoopOutcome.withPre])
      | failedExn e => rw [hlo] at h; exact absurd h (by simp [LoopOutcome.withPre])
    | error e2 =>
      rw [createInvLoop_cons_error d r rest hc] at h
      by_cases hre : rest.isEmpty = true
      · rw [if_pos hre] at h; exact absurd h (by simp)
      · rw [if_neg hre] at h
        cases hlo : createInvLoop gw d rest with
        | got i e3 =>
          exact ih (fun i hi => hall i (List.mem_cons_of_mem r hi)) i e3 hlo
        | exhausted e3 => rw [hlo] at h; exact absurd h (by simp [LoopOutcome.withPre])
        | failedExn e3 => rw [hlo] at h; exact absurd h (by simp [LoopOutcome.withPre])

theorem createInvLoop_all_exn (gw : StoreGateway) (d : String) :
    ∀ l : List Nat, l ≠ [] → (∀ i ∈ l, attemptExn (gw.createInvocation i) = true) →
      ∃ evs, createInvLoop gw d l = LoopOutcome.failedExn evs ∧
        SEv.errorCreateInvocationFailed ∈ evs ∧ SEv.errorNoValidInvocationId ∉ evs := by
  intro l
  induction l with
  | nil => intro h; exact absurd rfl h
  | cons r rest ih =>
    intro _ hall
    have hr := hall r (List.mem_cons_self r rest)
    cases hc : gw.createInvocation r with
    | ok idOpt => rw [hc] at hr; simp [attemptExn] at hr
    | error e =>
      cases e
      rw [createInvLoop_cons_error d r rest hc]
      by_cases hre : rest.isEmpty = true
      · rw [if_pos hre]
        exact ⟨_, rfl, by simp, by simp⟩
      · rw [if_neg hre]
        have hne : rest ≠ [] := by
          intro hx; rw [hx] at hre; exact hre rfl
        rcases ih hne (fun i hi => hall i (List.mem_cons_of_mem r hi)) with
          ⟨evs, heq, hmem, hnmem⟩
        rw [heq]
        refine ⟨_, rfl, ?_, ?_⟩
        · simp [LoopOutcome.withPre, hmem]
        · simp [LoopOutcome.withPre]
          exact hnmem

theorem createInvLoop_all_malformed (gw : StoreGateway) (d : String) :
    ∀ l : List Nat, (∀ i ∈ l, attemptMalformed (gw.createInvocation i) = true) →
      ∃ evs, createInvLoop gw d l = LoopOutcome.exhausted evs ∧
        SEv.errorCreateInvocationFailed ∉ evs := by
  intro l
  induction l with
  | nil => intro _; exact ⟨[], rfl, by simp⟩
  | cons r rest ih =>
    intro hall
    have hr := hall r (List.mem_cons_self r rest)
    cases hc : gw.createInvocation r with
    | error e => rw [hc] at hr; simp [attemptMalformed] at hr
    | ok idOpt =>
      rw [createInvLoop_cons_ok d r rest hc]
      rw [hc] at hr
      have ht : pyTruthyStr idOpt = false := by
        simp [attemptMalformed] at hr
        simp [hr]
      rw [ht]
      simp only [Bool.false_eq_true, if_false]
      rcases ih (fun i hi => hall i (List.mem_cons_of_mem r hi)) with ⟨evs, heq, hnmem⟩
      rw [heq]
      refine ⟨_, rfl, ?_⟩
      simp [LoopOutcome.withPre]
      exact hnmem

theorem processScreenshots_no_sleep (fs : String → FileStatus) :
    ∀ paths : List String, countEv SEv.isSleep (processScreenshots fs paths).2 = 0 := by
  intro paths
  induction paths with
  | nil => simp [processScreenshots, countEv]
  | cons p rest ih =>
    unfold processScreenshots
    cases fs p <;>
      simp [countEv, List.filter, SEv.isSleep] <;>
      simpa [countEv] using ih

/-! ## Concrete instances used by counterexamples and witnesses -/

set_option maxRecDepth 20000

/-- A session record with no metadata and no end time. -/
def sessEmpty : SessionRecord :=
  { sessionMetadata := none, metadata := none, creationDateTime := none, endDateTime := none }

/-- A well-formed step entry holding a single text block, with agreeing
summary and detail times. -/
def stepAt (sid time text : String) : StepEntry :=
  { invocationStepId := some sid, invocationStepTime := some time,
    fetch := Except.ok
      { payload := some { contentBlocks := some [{ text := some text, image := none }] },
        invocationStepTime := some time } }

/-- Empty diagnostics data (every key absent). -/
def ddEmpty : DiagnosticsData :=
  { component := none, action := none, result := none, next_steps := none }

/-- A file system where every path is missing. -/
def fsAbsent : String → FileStatus := fun _ => FileStatus.absent

/-- A session with one invocation carrying one hypothesis step, written the way
`store_diagnostic_step` writes sessions. -/
def gwW : RGateway :=
  { getSession := GetSessionResult.ok sessEmpty,
    listInvocations := Except.ok
      [ { invocationId := some "inv-1", createdAt := some "2024-01-01T10:00:00",
          description := some "Diagnóstico en cache por bob",
          listSteps := Except.ok
            [stepAt "step-1" "2024-01-01T10:05:00" "Hipótesis: cache fría\nIngeniero: bob"] } ] }

/-- The context reconstructed from `gwW`. -/
def cW : DiagnosticContext :=
  { incidentInfo :=
      { incidentId := "Unknown", systemAffected := "Unknown", severity := "Unknown",
        startedAt := "", status := "Active" },
    diagnosticTimeline :=
      [ { timestamp := some "2024-01-01T10:00:00",
          description := "Diagnóstico en cache por bob",
          engineer := "bob",
          steps :=
            [ { timestamp := "2024-01-01T10:05:00",
                textContent := "Hipótesis: cache fría\nIngeniero: bob",
                hasImages := false, imageRefs := [] } ] } ],
    hypotheses :=
      [ { text := "Hipótesis: cache fría\nIngeniero: bob",
          timestamp := "2024-01-01T10:05:00", engineer := "bob" } ],
    componentsTested := [], screenshots := [] }

theorem retrieve_gwW : retrieve_diagnostic_context gwW "" = some cW := by decide

/-! ## C3 — reconstruction failure conditions -/

/-- A gateway whose session exists but whose invocation listing raises. -/
def gwC3ce : RGateway :=
  { getSession := GetSessionResult.ok sessEmpty, listInvocations := Except.error () }

/-- C3 counterexample: the claim says `retrieve_diagnostic_context` fails
exactly when the session does not exist.  Here the session exists (the lookup
succeeds), yet the whole reconstruction fails (returns `None`) because the
invocation listing raised: the outer exception handler returns `None` instead
of a partial context. -/
theorem C3_counterexample :
    gwC3ce.getSession = GetSessionResult.ok sessEmpty ∧
    retrieve_diagnostic_context gwC3ce "" = none :=
  ⟨rfl, rfl⟩

/-- C3 (amended): reconstruction fails with `None` when the session lookup
fails (not found); and when the session lookup and the invocation listing both
succeed and every invocation summary carries a creation timestamp, the
reconstruction never fails as a whole — malformed or raising invocations and
steps are skipped and a (partial) context is returned. -/
theorem C3_failure_and_best_effort_semantics :
    (∀ (gw : RGateway) (now : String), gw.getSession = GetSessionResult.notFound →
      retrieve_diagnostic_context gw now = none) ∧
    (∀ (gw : RGateway) (now : String) (session : SessionRecord) (invs : List InvEntry),
      gw.getSession = GetSessionResult.ok session →
      gw.listInvocations = Except.ok invs →
      invs.all (fun i => i.createdAt.isSome) = true →
      (retrieve_diagnostic_context gw now).isSome = true) := by
  constructor
  · intro gw now h
    unfold retrieve_diagnostic_context
    rw [h]
  · intro gw now session invs h1 h2 h3
    unfold retrieve_diagnostic_context
    rw [h1, h2]
    exact buildContext_isSome h3

/-- C3 witness: the amended claim applied to a not-found gateway and to `gwW`. -/
theorem C3_failure_and_best_effort_semantics_witness :
    retrieve_diagnostic_context
      { getSession := GetSessionResult.notFound, listInvocations := Except.ok [] } "" = none ∧
    (retrieve_diagnostic_context gwW "").isSome = true :=
  ⟨C3_failure_and_best_effort_semantics.1
      { getSession := GetSessionResult.notFound, listInvocations := Except.ok [] } "" rfl,
   C3_failure_and_best_effort_semantics.2 gwW "" sessEmpty _ rfl rfl (by decide)⟩

/-! ## C4 — component extraction is deduplicating -/

/-- Two invocations whose steps both mention `Componente: auth-service`. -/
def gwC4ex : RGateway :=
  { getSession := GetSessionResult.ok sessEmpty,
    listInvocations := Except.ok
      [ { invocationId := some "inv-1", createdAt := some "2024-01-01T00:00:00",
          description := none,
          listSteps := Except.ok
            [stepAt "step-1" "2024-01-01T00:01:00" "Componente: auth-service\nResultado: ok"] },
        { invocationId := some "inv-2", createdAt := some "2024-01-01T01:00:00",
          description := none,
          listSteps := Except.ok
            [stepAt "step-2" "2024-01-01T01:01:00" "Componente: auth-service"] } ] }

/-- C4: component extraction is idempotent and deduplicating — on every
reconstructed context the tested-components collection has no duplicates, and
recording two steps whose text both contain `Componente: auth-service` yields
the tested-components collection `["auth-service"]` with that component
exactly once. -/
theorem C4_component_dedup :
    (∀ (gw : RGateway) (now : String) (c : DiagnosticContext),
        retrieve_diagnostic_context gw now = some c → c.componentsTested.Nodup) ∧
    ((retrieve_diagnostic_context gwC4ex "").map fun c => c.componentsTested)
      = some ["auth-service"] := by
  constructor
  · intro gw now c h
    rcases retrieve_some h with ⟨s, invs, _, _, hb⟩
    rw [(buildContext_fields hb).2.2.2.1]
    exact nodup_foldl_pyAddToSet _ [] List.nodup_nil
  · decide

/-- The context reconstructed from `gwC4ex`. -/
def cC4 : DiagnosticContext :=
  { incidentInfo :=
      { incidentId := "Unknown", systemAffected := "Unknown", severity := "Unknown",
        startedAt := "", status := "Active" },
    diagnosticTimeline :=
      [ { timestamp := some "2024-01-01T00:00:00", description := "Invocación inv-1",
          engineer := "Unknown",
          steps :=
            [ { timestamp := "2024-01-01T00:01:00",
                textContent := "Componente: auth-service\nResultado: ok",
                hasImages := false, imageRefs := [] } ] },
        { timestamp := some "2024-01-01T01:00:00", description := "Invocación inv-2",
          engineer := "Unknown",
          steps :=
            [ { timestamp := "2024-01-01T01:01:00",
                textContent := "Componente: auth-service",
                hasImages := false, imageRefs := [] } ] } ],
    hypotheses := [], componentsTested := ["auth-service"], screenshots := [] }

/-- C4 witness: the deduplication theorem applied at `gwC4ex`. -/
theorem C4_component_dedup_witness : cC4.componentsTested.Nodup :=
  C4_component_dedup.1 gwC4ex "" cC4 (by decide)

/-! ## C5 — record fails fast on a nonexistent session -/

/-- C5: when the initial `get_session` read-before-write check fails,
`store_diagnostic_step` returns `(False, None, None)` and the complete event
trace is the failed session lookup plus its error message — in particular no
`create_invocation` call and no other gateway write is ever attempted. -/
theorem C5_record_nonexistent_session (gw : StoreGateway) (fs : String → FileStatus)
    (engineer_id : String) (dd : DiagnosticsData) (screenshots : Option (List String))
    (step_id : String) (h : gw.getSession = Except.error ()) :
    store_diagnostic_step gw fs engineer_id dd screenshots step_id =
      ((false, none, none), [SEv.callGetSession, SEv.errorSessionNotAccessible]) := by
  unfold store_diagnostic_step
  rw [h]

/-- A store gateway whose session lookup fails. -/
def gwStoreDown : StoreGateway :=
  { getSession := Except.error (), createInvocation := fun _ => Except.ok (some "inv-1"),
    putInvocationStep := Except.ok (), getInvocationStep := Except.ok () }

/-- C5 witness: the theorem applied to a gateway whose session lookup fails. -/
theorem C5_record_nonexistent_session_witness :
    store_diagnostic_step gwStoreDown fsAbsent "alice" ddEmpty none "step-1" =
      ((false, none, none), [SEv.callGetSession, SEv.errorSessionNotAccessible]) :=
  C5_record_nonexistent_session gwStoreDown fsAbsent "alice" ddEmpty none "step-1" rfl

/-! ## C9 — deletion requires confirmation; the audit record stays local -/

/-- C9: when the interactive confirmation is denied, `delete_diagnostic_session`
returns `False` and its complete event trace is the local audit record print
followed by the cancellation notice — no `delete_session` gateway call is
issued, and neither event is a gateway call (the audit record is never sent to
the gateway). -/
theorem C9_delete_requires_confirmation (gw : DeleteGateway)
    (sid reason approver now : String) :
    delete_diagnostic_session gw sid reason approver now false =
      (false,
        [DEv.logAudit
          { action := "session_deletion", session_id := sid, timestamp := now,
            reason := reason, approver := approver },
         DEv.cancelledByUser]) ∧
    (DEv.logAudit
      { action := "session_deletion", session_id := sid, timestamp := now,
        reason := reason, approver := approver }).isGatewayCall = false ∧
    DEv.cancelledByUser.isGatewayCall = false := by
  exact ⟨rfl, rfl, rfl⟩

/-! ## C2 — hypothesis scan -/

/-- A session whose only step text contains the English word `hypothesis`. -/
def gwC2ce : RGateway :=
  { getSession := GetSessionResult.ok sessEmpty,
    listInvocations := Except.ok
      [ { invocationId := some "inv-1", createdAt := some "2024-01-01T00:00:00",
          description := none,
          listSteps := Except.ok
            [stepAt "step-1" "2024-01-01T00:05:00" "Working hypothesis: GC pauses"] } ] }

/-- C2 counterexample: the claim says the scan fires on either substring
`hipótesis` or `hypothesis`.  A step whose text contains `hypothesis`
(case-insensitively) but not `hipótesis` produces no hypothesis record: the
source (line 347) only tests the lower-cased text for `hipótesis`. -/
theorem C2_counterexample :
    hasSub (pyLower "Working hypothesis: GC pauses") "hypothesis" = true ∧
    ((retrieve_diagnostic_context gwC2ce "").map fun c => c.hypotheses) = some [] := by
  decide

/-- C2 (amended): the hypothesis scan fires on the substring `hipótesis` only,
case-insensitively (`hypothesis` does not fire); the text of every extracted record
contains `hipótesis` case-insensitively and its engineer is obtained from the
text by the case-sensitive `Ingeniero:` marker extraction (default `Unknown`);
a firing text block appends the record
`(text, timestamp = the detail timestamp of the step, engineer)`, as on the
concrete session `gwW`. -/
theorem C2_hypothesis_scan :
    (∀ (gw : RGateway) (now : String) (c : DiagnosticContext),
        retrieve_diagnostic_context gw now = some c →
        ∀ h ∈ c.hypotheses,
          hasSub (pyLower h.text) "hipótesis" = true ∧
          h.engineer = engineerFromText h.text) ∧
    ((retrieve_diagnostic_context gwW "").map fun c => c.hypotheses) =
      some
        [ { text := "Hipótesis: cache fría\nIngeniero: bob",
            timestamp := "2024-01-01T10:05:00", engineer := "bob" } ] ∧
    engineerFromText "Hipótesis: cache fría\nIngeniero: bob" = "bob" := by
  refine ⟨?_, by decide, by decide⟩
  intro gw now c hc h hmem
  rcases retrieve_some hc with ⟨s, invs, _, _, hb⟩
  rw [(buildContext_fields hb).2.2.1] at hmem
  rcases List.mem_flatten.mp (mem_pySortBy.mp hmem) with ⟨l, hl, hxl⟩
  rcases List.mem_map.mp hl with ⟨r, hr, hrl⟩
  rcases List.mem_filterMap.mp hr with ⟨inv, _, hpi⟩
  rw [← hrl] at hxl
  exact processInvocation_hyps_sound hpi h hxl

/-- The hypothesis record extracted on `gwW`. -/
def hypW : HypothesisRecord :=
  { text := "Hipótesis: cache fría\nIngeniero: bob",
    timestamp := "2024-01-01T10:05:00", engineer := "bob" }

/-- C2 witness: the amended claim applied to `gwW` and its extracted record. -/
theorem C2_hypothesis_scan_witness :
    hasSub (pyLower hypW.text) "hipótesis" = true ∧
    hypW.engineer = engineerFromText hypW.text :=
  C2_hypothesis_scan.1 gwW "" cW retrieve_gwW hypW (by decide)

/-! ## C8 — engineer derivation from the invocation description -/

/-- A session whose invocation description uses the English marker `" by "`. -/
def gwC8ce : RGateway :=
  { getSession := GetSessionResult.ok sessEmpty,
    listInvocations := Except.ok
      [ { invocationId := some "inv-1", createdAt := some "2024-01-01T00:00:00",
          description := some "diagnosis of payment-svc by alice",
          listSteps := Except.ok [] } ] }

/-- C8 counterexample: the claim says the engineer is derived by splitting the
description on `" by "` / `" por "`.  A description containing `" by alice"`
yields `Unknown` — the source (lines 385-386) only looks for the Spanish
marker `por ` (with no leading space) and never handles `" by "`. -/
theorem C8_counterexample :
    hasSub "diagnosis of payment-svc by alice" " by " = true ∧
    ((retrieve_diagnostic_context gwC8ce "").map fun c =>
        c.diagnosticTimeline.map (·.engineer)) = some ["Unknown"] := by
  decide

/-- C8 (amended): for every timeline entry of a reconstructed context, the
engineer is derived from the description of the entry by splitting on the substring
`por ` (no leading space, case-sensitive, Spanish only) and taking the piece
after the first occurrence (up to the next occurrence, if any); it is
`Unknown` whenever the description is empty or does not contain `por `. -/
theorem C8_engineer_extraction (gw : RGateway) (now : String) (c : DiagnosticContext)
    (h : retrieve_diagnostic_context gw now = some c) :
    ∀ e ∈ c.diagnosticTimeline,
      e.engineer =
        (if e.description != "" && hasSub e.description "por " then
          pyGet (pySplit e.description "por ") 1
        else "Unknown") := by
  intro e he
  rcases retrieve_some h with ⟨s, invs, _, _, hb⟩
  rw [(buildContext_fields hb).2.1] at he
  rcases mem_timeline_inv (mem_pySortBy.mp he) with ⟨inv, _, r, hpi, hre⟩
  rw [← hre]
  exact (processInvocation_fields hpi).2.2

/-- The timeline entry reconstructed from `gwW`. -/
def entW : TimelineEntry :=
  { timestamp := some "2024-01-01T10:00:00",
    description := "Diagnóstico en cache por bob",
    engineer := "bob",
    steps :=
      [ { timestamp := "2024-01-01T10:05:00",
          textContent := "Hipótesis: cache fría\nIngeniero: bob",
          hasImages := false, imageRefs := [] } ] }

/-- C8 witness: the amended claim applied to `gwW` and its timeline entry. -/
theorem C8_engineer_extraction_witness :
    entW.engineer =
      (if entW.description != "" && hasSub entW.description "por " then
        pyGet (pySplit entW.description "por ") 1
      else "Unknown") :=
  C8_engineer_extraction gwW "" cW retrieve_gwW entW (by decide)

/-! ## C6 — screenshot handling in record -/

/-- Diagnostics data for the C6 example. -/
def ddC6 : DiagnosticsData :=
  { component := some "cache", action := some "restart", result := some "ok",
    next_steps := some "monitor" }

/-- A file system with exactly one readable screenshot. -/
def fsC6 : String → FileStatus :=
  fun p => if p = "shot1.png" then FileStatus.content 7 else FileStatus.absent

/-- A fully healthy store gateway. -/
def gwStoreOk : StoreGateway :=
  { getSession := Except.ok (), createInvocation := fun _ => Except.ok (some "inv-1"),
    putInvocationStep := Except.ok (), getInvocationStep := Except.ok () }

/-- C6: each readable image path contributes exactly one image content block
(format from the file extension via `imageFormat`, which defaults to `png`),
each missing or unreadable path contributes no block, in path order; and on
the concrete run with one valid and one missing path the step is still written
successfully, with exactly one image block after the initial text block. -/
theorem C6_image_blocks :
    (∀ (fs : String → FileStatus) (paths : List String),
        (processScreenshots fs paths).1 =
          paths.filterMap fun p =>
            match fs p with
            | FileStatus.content b => some (CBlock.image (imageFormat p) b)
            | FileStatus.absent => none
            | FileStatus.readError => none) ∧
    ((store_diagnostic_step gwStoreOk fsC6 "alice" ddC6
        (some ["shot1.png", "missing.png"]) "step-1").2.filterMap putBlocksOf
      = [[CBlock.text (formatted_data "alice" ddC6), CBlock.image "png" 7]]) ∧
    (store_diagnostic_step gwStoreOk fsC6 "alice" ddC6
        (some ["shot1.png", "missing.png"]) "step-1").1
      = (true, some "inv-1", some "step-1") := by
  refine ⟨?_, by decide, by decide⟩
  intro fs paths
  induction paths with
  | nil => rfl
  | cons p rest ih =>
    unfold processScreenshots
    cases hf : fs p <;> simp [hf, List.filterMap_cons, ih]

/-! ## C10 — record is not atomic on step-write failure -/

/-- C10: when the session check and invocation creation succeed (first
attempt, truthy id) but `put_invocation_step` fails, `store_diagnostic_step`
returns `(False, invocation_id, None)` — the failure result still carries the
created invocation id — and the complete trace shows that after the failed
write nothing further happens: no verification call and no compensating
delete of the newly created invocation (the recorder has no rollback path at
all). -/
theorem C10_nonatomic_step_write (gw : StoreGateway) (fs : String → FileStatus)
    (engineer_id : String) (dd : DiagnosticsData) (step_id invId : String)
    (h1 : gw.getSession = Except.ok ())
    (h2 : gw.createInvocation 0 = Except.ok (some invId))
    (h3 : invId ≠ "")
    (h4 : gw.putInvocationStep = Except.error ()) :
    store_diagnostic_step gw fs engineer_id dd none step_id =
      ((false, some invId, none),
        [SEv.callGetSession,
         SEv.callCreateInvocation (descOf dd engineer_id),
         SEv.callPutInvocationStep [CBlock.text (formatted_data engineer_id dd)],
         SEv.errorPutStepFailed]) := by
  have ht : pyTruthyStr (some invId) = true := by simp [pyTruthyStr, h3]
  have hloop := createInvLoop_cons_ok (descOf dd engineer_id) 0 [1, 2] h2
  rw [if_pos ht] at hloop
  unfold store_diagnostic_step
  rw [h1]
  simp only [hloop, h4, processScreenshots, Option.getD_some, Option.getD_none]
  rfl

/-- A gateway that accepts the invocation but rejects the step write. -/
def gwC10w : StoreGateway :=
  { getSession := Except.ok (), createInvocation := fun _ => Except.ok (some "inv-9"),
    putInvocationStep := Except.error (), getInvocationStep := Except.ok () }

/-- C10 witness: the theorem applied to a gateway whose step write fails. -/
theorem C10_nonatomic_step_write_witness :
    store_diagnostic_step gwC10w fsAbsent "alice" ddEmpty none "step-1" =
      ((false, some "inv-9", none),
        [SEv.callGetSession,
         SEv.callCreateInvocation (descOf ddEmpty "alice"),
         SEv.callPutInvocationStep [CBlock.text (formatted_data "alice" ddEmpty)],
         SEv.errorPutStepFailed]) :=
  C10_nonatomic_step_write gwC10w fsAbsent "alice" ddEmpty "step-1" "inv-9"
    rfl rfl (by decide) rfl

/-! ## C7 — invocation-creation retry policy -/

theorem countEv_cons (p : SEv → Bool) (x : SEv) (l : List SEv) :
    countEv p (x :: l) = (if p x then 1 else 0) + countEv p l := by
  by_cases hx : p x = true <;> simp [countEv, List.filter_cons, hx]
  omega

theorem processScreenshots_no_create (fs : String → FileStatus) :
    ∀ paths : List String,
      countEv SEv.isCreateInvocation (processScreenshots fs paths).2 = 0 := by
  intro paths
  induction paths with
  | nil => simp [processScreenshots, countEv]
  | cons p rest ih =>
    unfold processScreenshots
    cases fs p <;>
      simp [countEv, List.filter, SEv.isCreateInvocation] <;>
      simpa [countEv] using ih

theorem forall_lt3_to_mem {p : Nat → Prop} (h : ∀ i, i < 3 → p i) :
    ∀ i ∈ [0, 1, 2], p i := by
  intro i hi
  rcases List.mem_cons.mp hi with rfl | hi
  · exact h 0 (by omega)
  rcases List.mem_cons.mp hi with rfl | hi
  · exact h 1 (by omega)
  rcases List.mem_cons.mp hi with rfl | hi
  · exact h 2 (by omega)
  · exact absurd hi (List.not_mem_nil i)

theorem store_of_failedExn (gw : StoreGateway) (fs : String → FileStatus)
    (eid : String) (dd : DiagnosticsData) (shots : Option (List String)) (sid : String)
    (hgs : gw.getSession = Except.ok ()) {evs : List SEv}
    (h : createInvLoop gw (descOf dd eid) [0, 1, 2] = LoopOutcome.failedExn evs) :
    store_diagnostic_step gw fs eid dd shots sid =
      ((false, none, none), SEv.callGetSession :: evs) := by
  unfold store_diagnostic_step
  rw [hgs]
  simp only [h]

theorem store_of_exhausted (gw : StoreGateway) (fs : String → FileStatus)
    (eid : String) (dd : DiagnosticsData) (shots : Option (List String)) (sid : String)
    (hgs : gw.getSession = Except.ok ()) {evs : List SEv}
    (h : createInvLoop gw (descOf dd eid) [0, 1, 2] = LoopOutcome.exhausted evs) :
    store_diagnostic_step gw fs eid dd shots sid =
      ((false, none, none),
        SEv.callGetSession :: evs ++ [SEv.errorNoValidInvocationId]) := by
  unfold store_diagnostic_step
  rw [hgs]
  simp only [h]

theorem store_of_got (gw : StoreGateway) (fs : String → FileStatus)
    (eid : String) (dd : DiagnosticsData) (shots : Option (List String)) (sid : String)
    (hgs : gw.getSession = Except.ok ()) {iid : String} {evs : List SEv}
    (h : createInvLoop gw (descOf dd eid) [0, 1, 2] = LoopOutcome.got iid evs) :
    ∃ res rest,
      store_diagnostic_step gw fs eid dd shots sid =
        (res, SEv.callGetSession :: (evs ++ (processScreenshots fs (shots.getD [])).2 ++ rest)) ∧
      countEv SEv.isCreateInvocation rest = 0 ∧ countEv SEv.isSleep rest = 0 := by
  unfold store_diagnostic_step
  rw [hgs]
  simp only [h]
  cases hput : gw.putInvocationStep with
  | error e =>
    refine ⟨_, _, rfl, ?_, ?_⟩ <;>
      simp [countEv, List.filter, SEv.isCreateInvocation, SEv.isSleep]
  | ok u =>
    cases hver : gw.getInvocationStep with
    | error e =>
      refine ⟨_, _, rfl, ?_, ?_⟩ <;>
        simp [countEv, List.filter, SEv.isCreateInvocation, SEv.isSleep]
    | ok v =>
      refine ⟨_, _, rfl, ?_, ?_⟩ <;>
        simp [countEv, List.filter, SEv.isCreateInvocation, SEv.isSleep]

theorem countEv_cons_false {p : SEv → Bool} {x : SEv} (hx : p x = false) (l : List SEv) :
    countEv p (x :: l) = countEv p l := by
  simp [countEv, List.filter_cons, hx]

/-- C7 (amended): invocation creation is attempted at most 3 times
(`countEv` of `create_invocation` calls in any trace is at most 3); the
1-second backoff happens only on raised attempts — if no attempt raises, the
trace has no sleep at all, even when malformed (id-less) responses force
retries; when all 3 attempts fail either way the result is
`(False, None, None)`; and the two failure modes are distinguished by which
error message ends the trace: an exception on the last attempt logs the
creation-failure error and never the no-valid-id error, while three malformed
responses log the no-valid-id error and never the creation-failure error. -/
theorem C7_retry_policy (gw : StoreGateway) (fs : String → FileStatus)
    (engineer_id : String) (dd : DiagnosticsData) (screenshots : Option (List String))
    (step_id : String) :
    countEv SEv.isCreateInvocation
        (store_diagnostic_step gw fs engineer_id dd screenshots step_id).2 ≤ 3 ∧
    ((∀ i, i < 3 → attemptExn (gw.createInvocation i) = false) →
      countEv SEv.isSleep
        (store_diagnostic_step gw fs engineer_id dd screenshots step_id).2 = 0) ∧
    (gw.getSession = Except.ok () →
      (∀ i, i < 3 → attemptFailed (gw.createInvocation i) = true) →
      (store_diagnostic_step gw fs engineer_id dd screenshots step_id).1
        = (false, none, none)) ∧
    (gw.getSession = Except.ok () →
      (∀ i, i < 3 → attemptExn (gw.createInvocation i) = true) →
      SEv.errorCreateInvocationFailed
          ∈ (store_diagnostic_step gw fs engineer_id dd screenshots step_id).2 ∧
      SEv.errorNoValidInvocationId
          ∉ (store_diagnostic_step gw fs engineer_id dd screenshots step_id).2) ∧
    (gw.getSession = Except.ok () →
      (∀ i, i < 3 → attemptMalformed (gw.createInvocation i) = true) →
      SEv.errorNoValidInvocationId
          ∈ (store_diagnostic_step gw fs engineer_id dd screenshots step_id).2 ∧
      SEv.errorCreateInvocationFailed
          ∉ (store_diagnostic_step gw fs engineer_id dd screenshots step_id).2) := by
  refine ⟨?_, ?_, ?_, ?_, ?_⟩
  · -- at most 3 creation attempts
    cases hgs : gw.getSession with
    | error e =>
      rw [C5_record_nonexistent_session gw fs engineer_id dd screenshots step_id hgs]
      simp [countEv, List.filter, SEv.isCreateInvocation]
    | ok u =>
      cases u
      have hcount := createInvLoop_create_count gw (descOf dd engineer_id) [0, 1, 2]
      cases hlo : createInvLoop gw (descOf dd engineer_id) [0, 1, 2] with
      | got iid evs =>
        rcases store_of_got gw fs engineer_id dd screenshots step_id hgs hlo with
          ⟨res, rest, heq, hcr, _⟩
        rw [heq]
        rw [hlo] at hcount
        simp only [LoopOutcome.evs] at hcount
        show countEv SEv.isCreateInvocation
          (SEv.callGetSession ::
            (evs ++ (processScreenshots fs (screenshots.getD [])).2 ++ rest)) ≤ 3
        rw [countEv_cons_false rfl, countEv_append, countEv_append,
          processScreenshots_no_create, hcr]
        simpa using hcount
      | exhausted evs =>
        rw [store_of_exhausted gw fs engineer_id dd screenshots step_id hgs hlo]
        rw [hlo] at hcount
        simp only [LoopOutcome.evs] at hcount
        show countEv SEv.isCreateInvocation
          (SEv.callGetSession :: (evs ++ [SEv.errorNoValidInvocationId])) ≤ 3
        rw [countEv_cons_false rfl, countEv_append]
        have h2 : countEv SEv.isCreateInvocation [SEv.errorNoValidInvocationId] = 0 := rfl
        rw [h2]
        simpa using hcount
      | failedExn evs =>
        rw [store_of_failedExn gw fs engineer_id dd screenshots step_id hgs hlo]
        rw [hlo] at hcount
        simp only [LoopOutcome.evs] at hcount
        show countEv SEv.isCreateInvocation (SEv.callGetSession :: evs) ≤ 3
        rw [countEv_cons_false rfl]
        simpa using hcount
  · -- no sleep when no attempt raises
    intro hnoexn
    have hnoexn3 : ∀ i ∈ [0, 1, 2], attemptExn (gw.createInvocation i) = false :=
      forall_lt3_to_mem hnoexn
    have hzero := createInvLoop_no_sleep gw (descOf dd engineer_id) [0, 1, 2] hnoexn3
    cases hgs : gw.getSession with
    | error e =>
      rw [C5_record_nonexistent_session gw fs engineer_id dd screenshots step_id hgs]
      simp [countEv, List.filter, SEv.isSleep]
    | ok u =>
      cases u
      cases hlo : createInvLoop gw (descOf dd engineer_id) [0, 1, 2] with
      | got iid evs =>
        rcases store_of_got gw fs engineer_id dd screenshots step_id hgs hlo with
          ⟨res, rest, heq, _, hsl⟩
        rw [heq]
        rw [hlo] at hzero
        simp only [LoopOutcome.evs] at hzero
        show countEv SEv.isSleep
          (SEv.callGetSession ::
            (evs ++ (processScreenshots fs (screenshots.getD [])).2 ++ rest)) = 0
        rw [countEv_cons_false rfl, countEv_append, countEv_append,
          processScreenshots_no_sleep, hzero, hsl]
      | exhausted evs =>
        rw [store_of_exhausted gw fs engineer_id dd screenshots step_id hgs hlo]
        rw [hlo] at hzero
        simp only [LoopOutcome.evs] at hzero
        show countEv SEv.isSleep
          (SEv.callGetSession :: (evs ++ [SEv.errorNoValidInvocationId])) = 0
        rw [countEv_cons_false rfl, countEv_append, hzero]
        rfl
      | failedExn evs =>
        rw [store_of_failedExn gw fs engineer_id dd screenshots step_id hgs hlo]
        rw [hlo] at hzero
        simp only [LoopOutcome.evs] at hzero
        show countEv SEv.isSleep (SEv.callGetSession :: evs) = 0
        rw [countEv_cons_false rfl, hzero]
  · -- all three attempts failing yields (False, None, None)
    intro hgs hfail
    have hfail3 : ∀ i ∈ [0, 1, 2], attemptFailed (gw.createInvocation i) = true :=
      forall_lt3_to_mem hfail
    cases hlo : createInvLoop gw (descOf dd engineer_id) [0, 1, 2] with
    | got iid evs =>
      exact absurd hlo
        (createInvLoop_not_got gw (descOf dd engineer_id) [0, 1, 2] hfail3 iid evs)
    | exhausted evs =>
      rw [store_of_exhausted gw fs engineer_id dd screenshots step_id hgs hlo]
    | failedExn evs =>
      rw [store_of_failedExn gw fs engineer_id dd screenshots step_id hgs hlo]
  · -- three raised attempts: creation-failure error, never the no-valid-id error
    intro hgs hexn
    have hexn3 : ∀ i ∈ [0, 1, 2], attemptExn (gw.createInvocation i) = true :=
      forall_lt3_to_mem hexn
    rcases createInvLoop_all_exn gw (descOf dd engineer_id) [0, 1, 2] (by simp) hexn3 with
      ⟨evs, hlo, hmem, hnmem⟩
    rw [store_of_failedExn gw fs engineer_id dd screenshots step_id hgs hlo]
    constructor
    · exact List.mem_cons_of_mem _ hmem
    · intro hx
      rcases List.mem_cons.mp hx with hx | hx
      · exact absurd hx (by simp)
      · exact hnmem hx
  · -- three malformed responses: no-valid-id error, never the creation-failure error
    intro hgs hmal
    have hmal3 : ∀ i ∈ [0, 1, 2], attemptMalformed (gw.createInvocation i) = true :=
      forall_lt3_to_mem hmal
    rcases createInvLoop_all_malformed gw (descOf dd engineer_id) [0, 1, 2] hmal3 with
      ⟨evs, hlo, hnmem⟩
    rw [store_of_exhausted gw fs engineer_id dd screenshots step_id hgs hlo]
    constructor
    · simp
    · intro hx
      rcases List.mem_cons.mp hx with hx | hx
      · exact absurd hx (by simp)
      · rcases List.mem_append.mp hx with hx | hx
        · exact hnmem hx
        · rcases List.mem_singleton.mp hx with hx
          exact absurd hx (by simp)

/-- A gateway whose first creation attempt returns a response without an
invocation id and whose second attempt succeeds. -/
def gwC7ce : StoreGateway :=
  { getSession := Except.ok (),
    createInvocation := fun i => if i = 0 then Except.ok none else Except.ok (some "inv-2"),
    putInvocationStep := Except.ok (), getInvocationStep := Except.ok () }

/-- C7 counterexample: the claim says there is a fixed 1-second backoff
between attempts on any failure.  Here the first attempt fails (malformed,
id-less response) and a second attempt follows, yet the trace contains no
sleep at all: the source (line 123) retries a malformed response with
`continue`, skipping the backoff, which only runs in the exception branch
(line 130). -/
theorem C7_counterexample :
    countEv SEv.isCreateInvocation
        (store_diagnostic_step gwC7ce fsAbsent "alice" ddEmpty none "step-1").2 = 2 ∧
    countEv SEv.isSleep
        (store_diagnostic_step gwC7ce fsAbsent "alice" ddEmpty none "step-1").2 = 0 ∧
    (store_diagnostic_step gwC7ce fsAbsent "alice" ddEmpty none "step-1").1
      = (true, some "inv-2", some "step-1") := by
  decide

/-- A gateway where every creation attempt raises. -/
def gwExnAll : StoreGateway :=
  { getSession := Except.ok (), createInvocation := fun _ => Except.error (),
    putInvocationStep := Except.ok (), getInvocationStep := Except.ok () }

/-- A gateway where every creation attempt returns a response without an id. -/
def gwMalAll : StoreGateway :=
  { getSession := Except.ok (), createInvocation := fun _ => Except.ok none,
    putInvocationStep := Except.ok (), getInvocationStep := Except.ok () }

/-- C7 witness: the amended claim applied to an always-raising gateway and an
always-malformed gateway. -/
theorem C7_retry_policy_witness :
    (store_diagnostic_step gwExnAll fsAbsent "alice" ddEmpty none "step-1").1
      = (false, none, none) ∧
    (SEv.errorCreateInvocationFailed
        ∈ (store_diagnostic_step gwExnAll fsAbsent "alice" ddEmpty none "step-1").2 ∧
      SEv.errorNoValidInvocationId
        ∉ (store_diagnostic_step gwExnAll fsAbsent "alice" ddEmpty none "step-1").2) ∧
    (SEv.errorNoValidInvocationId
        ∈ (store_diagnostic_step gwMalAll fsAbsent "alice" ddEmpty none "step-1").2 ∧
      SEv.errorCreateInvocationFailed
        ∉ (store_diagnostic_step gwMalAll fsAbsent "alice" ddEmpty none "step-1").2) ∧
    countEv SEv.isCreateInvocation
        (store_diagnostic_step gwMalAll fsAbsent "alice" ddEmpty none "step-1").2 ≤ 3 ∧
    countEv SEv.isSleep
        (store_diagnostic_step gwMalAll fsAbsent "alice" ddEmpty none "step-1").2 = 0 :=
  ⟨(C7_retry_policy gwExnAll fsAbsent "alice" ddEmpty none "step-1").2.2.1 rfl
      (fun _ _ => rfl),
   (C7_retry_policy gwExnAll fsAbsent "alice" ddEmpty none "step-1").2.2.2.1 rfl
      (fun _ _ => rfl),
   (C7_retry_policy gwMalAll fsAbsent "alice" ddEmpty none "step-1").2.2.2.2 rfl
      (fun _ _ => rfl),
   (C7_retry_policy gwMalAll fsAbsent "alice" ddEmpty none "step-1").1,
   (C7_retry_policy gwMalAll fsAbsent "alice" ddEmpty none "step-1").2.1
      (fun _ _ => rfl)⟩

/-! ## C1 — ordering of the reconstructed timeline -/

/-- Two invocations whose creation order is opposite to the client-supplied
timestamps of their steps. -/
def gwC1ce : RGateway :=
  { getSession := GetSessionResult.ok sessEmpty,
    listInvocations := Except.ok
      [ { invocationId := some "inv-a", createdAt := some "2024-01-02T00:00:00",
          description := none,
          listSteps := Except.ok [stepAt "step-a" "2024-01-01T00:00:00" "step A"] },
        { invocationId := some "inv-b", createdAt := some "2024-01-01T12:00:00",
          description := none,
          listSteps := Except.ok [stepAt "step-b" "2024-01-03T00:00:00" "step B"] } ] }

/-- C1 counterexample: the claim says that whenever the recorded steps have
distinct step timestamps, the flattened step sequence of the reconstructed
timeline is sorted ascending by step timestamp.  On a session whose two
invocations were created in the opposite order of their step timestamps,
reconstruction yields the flattened timestamp sequence
`["2024-01-03...", "2024-01-01..."]` — distinct timestamps, yet not sorted:
the code orders invocations by creation time and only sorts steps within each
invocation. -/
theorem C1_counterexample :
    ((retrieve_diagnostic_context gwC1ce "").map fun c =>
        (flatSteps c).map (·.timestamp))
      = some ["2024-01-03T00:00:00", "2024-01-01T00:00:00"] ∧
    (["2024-01-03T00:00:00", "2024-01-01T00:00:00"] : List String).Nodup ∧
    ¬ (["2024-01-03T00:00:00", "2024-01-01T00:00:00"] : List String).Pairwise
        (fun s t => strLe s t = true) := by
  refine ⟨by decide, by decide, ?_⟩
  intro h
  rcases List.pairwise_cons.mp h with ⟨h1, _⟩
  have := h1 "2024-01-01T00:00:00" (by decide)
  exact absurd this (by decide)

/-- C1 (amended): the reconstructor preserves both orderings — the timeline
is sorted ascending by invocation creation time and the steps inside each
timeline entry are sorted ascending by step timestamp; the flattened step
sequence is additionally sorted ascending by step timestamp provided the
invocation creation order is consistent with the step timestamps
(`crossConsistentB`, which holds for sessions written through
`store_diagnostic_step`) and the summary time of each step agrees with its detail
time (`sessionTimesAgreeB`, which holds for steps written through
`put_invocation_step`). -/
theorem C1_timeline_ordering (gw : RGateway) (now : String) (c : DiagnosticContext)
    (invs : List InvEntry)
    (hli : gw.listInvocations = Except.ok invs)
    (hagree : sessionTimesAgreeB invs = true)
    (hcross : crossConsistentB invs = true)
    (hres : retrieve_diagnostic_context gw now = some c) :
    (∀ e ∈ c.diagnosticTimeline,
        e.steps.Pairwise fun s t => strLe s.timestamp t.timestamp = true) ∧
    c.diagnosticTimeline.Pairwise (fun a b => entLe a b = true) ∧
    (flatSteps c).Pairwise fun s t => strLe s.timestamp t.timestamp = true := by
  rcases retrieve_some hres with ⟨session, invs0, hgs, hli0, hb⟩
  rw [hli] at hli0
  injection hli0 with hinvs
  subst hinvs
  unfold sessionTimesAgreeB at hagree
  unfold crossConsistentB at hcross
  have htl := (buildContext_fields hb).2.1
  have hA : ∀ e ∈ c.diagnosticTimeline,
      e.steps.Pairwise fun s t => strLe s.timestamp t.timestamp = true := by
    intro e he
    rw [htl] at he
    rcases mem_timeline_inv (mem_pySortBy.mp he) with ⟨inv, hinv, r, hpi, hre⟩
    rw [← hre]
    exact processInvocation_steps_sorted hpi (List.all_eq_true.mp hagree inv hinv)
  have hB : c.diagnosticTimeline.Pairwise fun a b => entLe a b = true := by
    rw [htl]
    exact pairwise_pySortBy entLe_trans entLe_total _
  refine ⟨hA, hB, ?_⟩
  unfold flatSteps
  refine List.pairwise_flatten.mpr ⟨?_, ?_⟩
  · intro l hl
    rcases List.mem_map.mp hl with ⟨e, he, hle⟩
    rw [← hle]
    exact hA e he
  · rw [List.pairwise_map]
    refine hB.imp_of_mem ?_
    intro e1 e2 h1 h2 hle x hx y hy
    rw [htl] at h1 h2
    rcases mem_timeline_inv (mem_pySortBy.mp h1) with ⟨inv1, hinv1, r1, hpi1, hre1⟩
    rcases mem_timeline_inv (mem_pySortBy.mp h2) with ⟨inv2, hinv2, r2, hpi2, hre2⟩
    rw [← hre1] at hx
    rw [← hre2] at hy
    rcases (processInvocation_fields hpi1).2.1 x hx with ⟨se1, hse1, hxts⟩
    rcases (processInvocation_fields hpi2).2.1 y hy with ⟨se2, hse2, hyts⟩
    have hk1 : entrySortKey e1 = invSortKey inv1 := by
      rw [← hre1]
      unfold entrySortKey invSortKey
      rw [(processInvocation_fields hpi1).1]
    have hk2 : entrySortKey e2 = invSortKey inv2 := by
      rw [← hre2]
      unfold entrySortKey invSortKey
      rw [(processInvocation_fields hpi2).1]
    have hle2 : strLe (invSortKey inv1) (invSortKey inv2) = true := by
      have hx2 : entLe e1 e2 = true := hle
      unfold entLe at hx2
      rw [hk1, hk2] at hx2
      exact hx2
    have h3 := List.all_eq_true.mp (List.all_eq_true.mp hcross inv1 hinv1) inv2 hinv2
    rw [hle2] at h3
    simp only [Bool.not_true, Bool.false_or] at h3
    have h5 := List.all_eq_true.mp (List.all_eq_true.mp h3 se1 hse1) se2 hse2
    rw [hxts, hyts]
    exact h5

/-- C1 witness: the amended claim applied to `gwW`. -/
theorem C1_timeline_ordering_witness :
    cW.diagnosticTimeline.Pairwise (fun a b => entLe a b = true) ∧
    (flatSteps cW).Pairwise fun s t => strLe s.timestamp t.timestamp = true :=
  (C1_timeline_ordering gwW "" cW _ rfl (by decide) (by decide) retrieve_gwW).2
